import Mathlib

/-!
Verification development for the blippy agent platform.

Each definition below is a shallow embedding of a function of the Go source
(`internal/tool`, `internal/runner`, `internal/scheduler`, `internal/agentloop`,
`internal/pubsub`), translated clause by clause.  External effects (the SQLite
store, the OS filesystem, the OpenRouter client, cron parsing, wall-clock time)
are passed in as explicit function parameters, so every definition is a total,
executable Lean function.  Theorems about the embedded code follow, one per
specification claim, each preceded by a doc comment naming the claim.
-/

deriving instance DecidableEq for Except

namespace Blippy

/-! ## Go standard-library string primitives

The tool-name codec (`internal/tool/executor.go`) is built on `strings.ReplaceAll`
and `strings.Replace(s, old, new, 1)`.  We model them on `List Char` with a fuel
argument so the recursion is structural (fuel `s.length + 1` always suffices for
a non-empty pattern, since every step consumes at least one character of `s`).
Callers in the source never pass an empty pattern; for an empty pattern the model
returns the string unchanged.
-/

/-- Modelled Go `strings.Replace(s, old, new, n)` scan for non-empty `old`:
left-to-right, each match consumes `old` and emits `new`, at most `n` matches
(`n` is the remaining replacement budget). -/
def replaceFuel (old new : List Char) : Nat → List Char → Nat → List Char
  | 0, s, _ => s
  | fuel + 1, s, n =>
    match n with
    | 0 => s
    | n + 1 =>
      match s with
      | [] => []
      | c :: rest =>
        if old ≠ [] ∧ old.isPrefixOf (c :: rest) then
          new ++ replaceFuel old new fuel ((c :: rest).drop old.length) n
        else
          c :: replaceFuel old new fuel rest (n + 1)

/-- Modelled Go `strings.ReplaceAll(s, old, new)` (non-empty `old`): the fuel and
replacement budget `s.length + 1` cover every possible occurrence. -/
def goReplaceAll (s old new : String) : String :=
  ⟨replaceFuel old.data new.data (s.data.length + 1) s.data (s.data.length + 1)⟩

/-- Modelled Go `strings.Replace(s, old, new, 1)` (non-empty `old`). -/
def goReplaceOne (s old new : String) : String :=
  ⟨replaceFuel old.data new.data (s.data.length + 1) s.data 1⟩

/-! ## Tool-name codec (`internal/tool/executor.go`) -/

/-- `EncodeToolName` converts internal tool names to API-safe names:
`strings.ReplaceAll(name, ":", "__")`. -/
def EncodeToolName (name : String) : String :=
  goReplaceAll name ":" "__"

/-- `DecodeToolName` converts API-safe tool names back to internal names:
`strings.Replace(name, "notify__", "notify:", 1)`. -/
def DecodeToolName (name : String) : String :=
  goReplaceOne name "notify__" "notify:"

/-- The static tool names registered on the `Registry` at startup
(`cmd/blippy/main.go`: fetch, bash, call_agent, schedule_agent_run, and the
memory tools; names from their respective `Tool{Name: ...}` literals). -/
def registeredStaticToolNames : List String :=
  ["fetch_url", "bash", "call_agent", "schedule_agent_run",
   "memory_view", "memory_create", "memory_edit", "memory_delete"]

/-! ## Filesystem path resolution (`internal/tool/filesystem.go`)

Paths are Unix-style character lists.  `filepath.Clean`, `filepath.Join`,
`filepath.Dir` and `filepath.IsAbs` are modelled here with Go's documented Unix
semantics; `filepath.EvalSymlinks` and `os.Stat` are OS effects and are passed
in as function parameters.
-/

/-- A filesystem path, as the list of its characters. -/
abbrev Path := List Char

/-- Modelled Go `filepath.IsAbs` (Unix): the path starts with the separator. -/
def isAbs (p : Path) : Bool :=
  match p with
  | [] => false
  | c :: _ => c = '/'

/-- Split a path into its `/`-separated components (empty components kept,
as in Go's `Clean` scan over separator runs). -/
def splitSlash (s : Path) : List Path :=
  s.foldr
    (fun c acc =>
      if c = '/' then [] :: acc
      else
        match acc with
        | [] => [[c]]
        | comp :: rest => (c :: comp) :: rest)
    [[]]

/-- One step of Go `filepath.Clean`'s component processing, on a stack `out`
holding the kept components most-recent-first: empty and `.` components are
dropped; `..` pops a poppable component, is dropped at the root when `rooted`,
and is kept when there is nothing to pop in a relative path. -/
def cleanStep (rooted : Bool) (out : List Path) (comp : Path) : List Path :=
  if comp = [] ∨ comp = ['.'] then out
  else if comp = ['.', '.'] then
    match out with
    | [] => if rooted then [] else [['.', '.']]
    | top :: rest => if top = ['.', '.'] then ['.', '.'] :: out else rest
  else comp :: out

/-- Join components with `/`. -/
def joinSlash : List Path → Path
  | [] => []
  | [c] => c
  | c :: rest => c ++ '/' :: joinSlash rest

/-- Modelled Go `filepath.Clean` (Unix): shortest lexically-equivalent path.
The empty path cleans to `.`; a rooted result keeps its leading `/`. -/
def goClean (p : Path) : Path :=
  if p = [] then ['.']
  else
    let rooted := isAbs p
    let out := ((splitSlash p).foldl (cleanStep rooted) []).reverse
    if rooted then '/' :: joinSlash out
    else if out = [] then ['.'] else joinSlash out

/-- Modelled Go `filepath.Join(a, b)` (Unix): empty elements are dropped, the
rest are separator-joined, and the result is cleaned. -/
def goJoin (a b : Path) : Path :=
  if a = [] ∧ b = [] then []
  else if a = [] then goClean b
  else if b = [] then goClean a
  else goClean (a ++ '/' :: b)

/-- The prefix of `p` up to and including its last `/` (empty when `p` has no
separator), as used by Go `filepath.Dir`. -/
def lastSlashPrefix (p : Path) : Path :=
  (p.reverse.dropWhile (fun c => c ≠ '/')).reverse

/-- Modelled Go `filepath.Dir` (Unix): everything up to the final separator,
cleaned; `.` when there is no separator. -/
def goDir (p : Path) : Path :=
  goClean (lastSlashPrefix p)

/-- `resolvePath` (filesystem.go): securely resolves a relative path within a
root directory, rejecting absolute paths, `..` traversal, and symlink escapes.
`evalSymlinks` stands for `filepath.EvalSymlinks` (`.error` = OS error). -/
def resolvePath (evalSymlinks : Path → Except String Path)
    (rootPath relativePath : Path) : Except String Path :=
  if isAbs relativePath then .error "absolute paths are not allowed"
  else
    let cleaned := goClean relativePath
    if cleaned = ['.', '.'] ∨ ['.', '.', '/'].isPrefixOf cleaned then
      .error "path traversal is not allowed"
    else
      let joined := goJoin rootPath cleaned
      match evalSymlinks joined with
      | .error e => .error ("resolve path: " ++ e)
      | .ok resolved =>
        match evalSymlinks rootPath with
        | .error e => .error ("resolve root: " ++ e)
        | .ok absRoot =>
          if ¬ (absRoot ++ ['/']).isPrefixOf resolved ∧ resolved ≠ absRoot then
            .error "path escapes root directory"
          else .ok resolved

/-- The ancestor walk of `resolvePathForCreate`: starting from the target's
parent, walk up to the nearest existing directory (per `stat`), stopping at the
root or at a fixpoint of `Dir`.  Fuel keeps the recursion structural; the walk
shortens the path each round, so the caller's fuel always suffices. -/
def findExistingAncestor (stat : Path → Bool) (absRoot : Path) :
    Nat → Path → Path
  | 0, ancestor => ancestor
  | fuel + 1, ancestor =>
    if ancestor = absRoot then ancestor
    else if stat ancestor then ancestor
    else
      let parent := goDir ancestor
      if parent = ancestor then ancestor
      else findExistingAncestor stat absRoot fuel parent

/-- `resolvePathForCreate` (filesystem.go): like `resolvePath` but the file may
not exist yet — the nearest existing ancestor of the target is what gets
validated against the root.  `stat` stands for `os.Stat` succeeding. -/
def resolvePathForCreate (evalSymlinks : Path → Except String Path)
    (stat : Path → Bool) (rootPath relativePath : Path) : Except String Path :=
  if isAbs relativePath then .error "absolute paths are not allowed"
  else
    let cleaned := goClean relativePath
    if cleaned = ['.', '.'] ∨ ['.', '.', '/'].isPrefixOf cleaned then
      .error "path traversal is not allowed"
    else
      match evalSymlinks rootPath with
      | .error e => .error ("resolve root: " ++ e)
      | .ok absRoot =>
        let targetPath := goJoin absRoot cleaned
        let ancestor :=
          findExistingAncestor stat absRoot (targetPath.length + 2) (goDir targetPath)
        match evalSymlinks ancestor with
        | .error e => .error ("resolve ancestor: " ++ e)
        | .ok resolvedAncestor =>
          if ¬ (absRoot ++ ['/']).isPrefixOf resolvedAncestor ∧ resolvedAncestor ≠ absRoot then
            .error "path escapes root directory"
          else .ok targetPath

/-! ## Executor (`internal/tool/executor.go`)

`openrouter.OutputItem` and `openrouter.Input` carry the fields of the structs
in the OpenRouter client source; unset Go fields keep their zero value `""`.
`Executor.executeTool`'s dispatch (registry, `notify:*`, filesystem builders)
bottoms out in handler I/O, so the whole of `executeTool` is abstracted as an
`exec : internal name → raw args → (text, error)` parameter; `ProcessOutput`'s
own logic — filtering, echoing, the concurrent workers' error/empty coercion,
and index-addressed collection — is embedded below.
-/

/-- An `openrouter.OutputItem` as used by `ProcessOutput` (message content is
irrelevant to tool dispatch and omitted). -/
structure OutputItem where
  type : String := ""
  id : String := ""
  callID : String := ""
  name : String := ""
  arguments : String := ""
  deriving Repr, DecidableEq, Inhabited

/-- An `openrouter.Input` as produced by `ProcessOutput` (message-only fields
omitted). -/
structure Input where
  type : String := ""
  id : String := ""
  callID : String := ""
  name : String := ""
  arguments : String := ""
  output : String := ""
  deriving Repr, DecidableEq, Inhabited

/-- The body of one concurrent worker in `ProcessOutput`: decode the name, run
the tool, coerce a handler error to `"Error: <message>"`, and substitute
`"(no output)"` for an empty result. -/
def workerOutput (exec : String → String → Except String String)
    (call : OutputItem) : String :=
  let result :=
    match exec (DecodeToolName call.name) call.arguments with
    | .error e => "Error: " ++ e
    | .ok r => r
  if result = "" then "(no output)" else result

/-- The echo record `ProcessOutput` appends for each function call, mirroring
the model's own emission. -/
def echoInput (call : OutputItem) : Input :=
  { type := "function_call", id := call.id, callID := call.callID,
    name := call.name, arguments := call.arguments }

/-- The `function_call_output` record built from a completed worker. -/
def outputInputOf (exec : String → String → Except String String)
    (call : OutputItem) : Input :=
  { type := "function_call_output", callID := call.callID,
    output := workerOutput exec call }

/-- The collection loop of `ProcessOutput`: results arrive over the channel in
completion order `order` (a permutation of the call indices) and are written
into `outputInputs[r.index]`, so the slot of call `i` holds call `i`'s output
no matter when it completed. -/
def collectOutputs (exec : String → String → Except String String)
    (toolCalls : List OutputItem) (order : List Nat) : List Input :=
  order.foldl
    (fun acc i => acc.set i (outputInputOf exec (toolCalls.getD i default)))
    (List.replicate toolCalls.length default)

/-- The `toolCalls` slice `ProcessOutput` builds: the items of type
`function_call`, in response order. -/
def functionCalls (output : List OutputItem) : List OutputItem :=
  output.filter (fun item => item.type = "function_call")

/-- `Executor.ProcessOutput`: filter the response output to function calls;
if none, return no continuation inputs; otherwise echo the calls and append
one `function_call_output` per call, collected in completion order `order` but
placed by original call index.  The Go function's error result is always `nil`,
hence the always-`ok` `Except`. -/
def ProcessOutput (exec : String → String → Except String String)
    (output : List OutputItem) (order : List Nat) :
    Except String (List Input) :=
  let toolCalls := functionCalls output
  if toolCalls.length = 0 then .ok []
  else .ok (toolCalls.map echoInput ++ collectOutputs exec toolCalls order)

/-- The continuation-inputs list `ProcessOutput` returns when calls are
present: the echoes in call order followed by the outputs in call order. -/
def continuation (exec : String → String → Except String String)
    (output : List OutputItem) : List Input :=
  (functionCalls output).map echoInput
    ++ (functionCalls output).map (outputInputOf exec)

/-! ## Runner and the `call_agent` tool
(`internal/runner/runner.go`, `internal/runner/adapter.go`, `internal/tool`) -/

/-- `tool.DefaultMaxDepth` (depth context file). -/
def DefaultMaxDepth : Nat := 5

/-- A `store.Agent` row, as read by `Runner.Run` (fields beyond the id are
unused by the embedded logic but kept for shape). -/
structure Agent where
  id : String
  model : String := ""
  systemPrompt : String := ""
  enabledTools : String := ""
  enabledNotificationChannels : String := ""
  deriving Repr, DecidableEq, Inhabited

/-- A `conversations` row as created by `Runner.Run`, extended with the ghost
field `createdAtDepth` recording the depth of the `Run` call that inserted it
(instrumentation only — it mirrors `opts.Depth` at the insertion site). -/
structure Conversation where
  id : String
  agentID : String
  title : String := ""
  previousResponseID : String := ""
  createdAt : String := ""
  updatedAt : String := ""
  createdAtDepth : Nat := 0
  deriving Repr, DecidableEq, Inhabited

/-- `runner.RunOpts`. -/
structure RunOpts where
  agentID : String := ""
  prompt : String := ""
  depth : Nat := 0
  model : String := ""
  title : String := ""
  deriving Repr, DecidableEq, Inhabited

/-- `runner.RunResult`. -/
structure RunResult where
  conversationID : String := ""
  response : String := ""
  deriving Repr, DecidableEq, Inhabited

/-- The errors `Runner.Run` can return, one constructor per `fmt.Errorf` site. -/
inductive RunError where
  | maxDepthExceeded (depth max : Nat)
  | getAgent (e : String)
  | createConversation (e : String)
  | saveUserMessage (e : String)
  | runTurn (e : String)
  deriving Repr, DecidableEq

/-- The conversation rows visible to `Runner.Run` (the store slice it writes). -/
structure RunnerState where
  conversations : List Conversation
  deriving Repr, DecidableEq, Inhabited

/-- `Runner.Run`: check the depth limit, fetch the agent, create a fresh
conversation, then delegate the turn.  `getAgent` stands for the store read,
`turn` for the outcome of `Loop.RunTurn` (which performs the LLM round trips),
`newID`/`now` for `uuid.NewString()` and the current UTC timestamp.  The store
state is returned alongside the result on every path (in Go the conversation
row persists even when the turn later fails). -/
def runnerRun (getAgent : String → Except String Agent)
    (turn : Except String String) (newID now : String)
    (opts : RunOpts) (st : RunnerState) :
    Except RunError RunResult × RunnerState :=
  if opts.depth > DefaultMaxDepth then
    (.error (.maxDepthExceeded opts.depth DefaultMaxDepth), st)
  else
    match getAgent opts.agentID with
    | .error e => (.error (.getAgent e), st)
    | .ok _agent =>
      let conv : Conversation :=
        { id := newID, agentID := opts.agentID, title := opts.title,
          previousResponseID := "", createdAt := now, updatedAt := now,
          createdAtDepth := opts.depth }
      let st' : RunnerState := { conversations := st.conversations ++ [conv] }
      match turn with
      | .error e => (.error (.runTurn e), st')
      | .ok response =>
        (.ok { conversationID := newID, response := response }, st')

/-- `tool.callAgentArgs`, already JSON-decoded (the handler's
`json.Unmarshal` step is external input parsing). -/
structure CallAgentArgs where
  agentID : String := ""
  prompt : String := ""
  model : String := ""
  deriving Repr, DecidableEq, Inhabited

/-- The `call_agent` tool handler (`NewCallAgentTool`): resolve the agent id
from args or context, require a prompt, bump the depth, re-check the bound,
and delegate to `AgentCaller.RunAgent`; a failed subagent run is returned as
ordinary tool-result text with a `nil` error. -/
def callAgentHandler
    (runAgent : String → String → Nat → String → Except String String)
    (ctxAgentID : String) (ctxDepth : Nat) (args : CallAgentArgs) :
    Except String String :=
  let agentID := if args.agentID = "" then ctxAgentID else args.agentID
  if agentID = "" then .error "agent_id is required (no current agent in context)"
  else if args.prompt = "" then .error "prompt is required"
  else
    let newDepth := ctxDepth + 1
    if newDepth > DefaultMaxDepth then
      .error ("max agent depth exceeded (" ++ toString DefaultMaxDepth ++ ")")
    else
      match runAgent agentID args.prompt newDepth args.model with
      | .error e => .ok ("Error calling agent: " ++ e)
      | .ok response => .ok response

/-! ## Scheduler (`internal/scheduler/scheduler.go`) -/

/-- A `triggers` row (`sql.NullString` fields as `Option String`). -/
structure Trigger where
  id : String
  agentID : String
  name : String := ""
  prompt : String := ""
  cronExpr : Option String := none
  enabled : Bool := true
  nextRunAt : Option String := none
  model : String := ""
  conversationTitle : String := ""
  createdAt : String := ""
  updatedAt : String := ""
  deriving Repr, DecidableEq, Inhabited

/-- A `trigger_runs` audit row. -/
structure TriggerRun where
  id : String
  triggerID : String
  status : String
  errorMessage : Option String := none
  conversationID : Option String := none
  startedAt : String := ""
  finishedAt : Option String := none
  deriving Repr, DecidableEq, Inhabited

/-- The store slice `executeTrigger` touches. -/
structure SchedState where
  triggers : List Trigger
  runs : List TriggerRun
  deriving Repr, DecidableEq, Inhabited

/-- Whether the cron branch of `executeTrigger` is taken:
`trigger.CronExpr.Valid && trigger.CronExpr.String != ""`. -/
def Trigger.hasCron (t : Trigger) : Bool :=
  match t.cronExpr with
  | some e => e ≠ ""
  | none => false

/-- The `runner.RunOpts` literal built by `Scheduler.executeTrigger` for a due
trigger (scheduler.go:147-152): agent id, prompt, depth 0 and model from the
trigger; the remaining fields keep their Go zero values. -/
def triggerRunOpts (trigger : Trigger) : RunOpts :=
  { agentID := trigger.agentID, prompt := trigger.prompt, depth := 0,
    model := trigger.model }

/-- `Scheduler.executeTrigger`: insert a `running` audit row, run the agent,
record the outcome on the audit row, then either recompute a cron trigger's
next run or delete a one-shot trigger.  `parseCron` stands for the cron parser
(`none` = parse error, logged and skipped); a parsed schedule is its
`Next : time → time` function; `fmt` renders a time as its RFC3339 string;
`run` is `Runner.Run`.  Store write failures are logged, not propagated, so
the writes are modelled as succeeding. -/
def executeTrigger (parseCron : String → Option (Nat → Nat))
    (fmt : Nat → String) (run : RunOpts → Except String RunResult)
    (now : Nat) (runID : String) (trigger : Trigger) (st : SchedState) :
    SchedState :=
  let st1 : SchedState :=
    { st with runs := st.runs ++
        [{ id := runID, triggerID := trigger.id, status := "running",
           startedAt := fmt now }] }
  let outcome := run (triggerRunOpts trigger)
  let status := match outcome with | .error _ => "failed" | .ok _ => "completed"
  let errorMessage : Option String :=
    match outcome with | .error e => some e | .ok _ => none
  let conversationID : Option String :=
    match outcome with
    | .error _ => none
    | .ok res => if res.conversationID ≠ "" then some res.conversationID else none
  let st2 : SchedState :=
    { st1 with runs := st1.runs.map (fun r =>
        if r.id = runID then
          { r with
            status := status, errorMessage := errorMessage,
            conversationID := conversationID, finishedAt := some (fmt now) }
        else r) }
  if trigger.hasCron then
    match parseCron ((trigger.cronExpr).getD "") with
    | none => st2
    | some next =>
      { st2 with triggers := st2.triggers.map (fun t =>
          if t.id = trigger.id then
            { t with
            nextRunAt := some (fmt (next now)), updatedAt := fmt now }
          else t) }
  else
    { st2 with triggers := st2.triggers.filter (fun t => t.id ≠ trigger.id) }

/-! ## Turn finalization (`internal/agentloop/loop.go`) -/

/-- An `agentloop.StoredItem`. -/
structure StoredItem where
  type : String := ""
  text : String := ""
  name : String := ""
  input : String := ""
  result : String := ""
  id : String := ""
  callID : String := ""
  deriving Repr, DecidableEq, Inhabited

/-- What `Loop.finishTurn` did to the conversation row, plus instrumentation:
whether `GenerateTitle` was called and the title carried by `TurnDone`. -/
structure FinishResult where
  conv : Conversation
  generateAttempted : Bool
  turnDoneTitle : String
  deriving Repr, DecidableEq, Inhabited

/-- `Loop.finishTurn`'s conversation-title logic (loop.go:167-236): with no
items the turn ends untouched; otherwise the assistant message is persisted
and, iff the stored title is empty and the user text non-empty, the LLM is
asked for a title (`genTitle`, `.error` = generation failure, which is logged
and leaves no title); the conversation update then writes the generated title
when one was produced and the existing title otherwise. -/
def finishTurn (genTitle : Except String String) (conv : Conversation)
    (userContent : String) (items : List StoredItem) (responseID : String) :
    FinishResult :=
  if items.length = 0 then
    { conv := conv, generateAttempted := false, turnDoneTitle := "" }
  else
    let attempted := conv.title = "" ∧ userContent ≠ ""
    let title :=
      if conv.title = "" then
        if userContent ≠ "" then
          match genTitle with
          | .error _ => ""
          | .ok generated => generated
        else ""
      else ""
    let conv' :=
      if responseID ≠ "" ∨ title ≠ "" then
        let newTitle := if title ≠ "" then title else conv.title
        { conv with
          title := newTitle, previousResponseID := responseID }
      else conv
    { conv := conv', generateAttempted := decide attempted,
      turnDoneTitle := title }

/-! ## Pub/sub broker (`internal/pubsub`, in-repo source)

The broker's channels are modelled by instrumentation: per subscription handle
we track whether it is registered in the topic index and how many times Go's
`close(sub.ch)` has executed on its mailbox (`close` of a closed channel is a
runtime panic in Go; the model just counts).
-/

/-- One subscription handle's observable state. -/
structure SubState where
  topic : String
  registered : Bool
  closeCount : Nat
  deriving Repr, DecidableEq, Inhabited

/-- The broker's state: subscription handles (by numeric handle id) and the
busy set. -/
structure BrokerState where
  subs : List (Nat × SubState)
  busy : List String
  deriving Repr, DecidableEq, Inhabited

/-- The broker operations a client can perform.  `subscribe` carries the fresh
handle id the call returns; `publish` carries an event payload. -/
inductive BrokerOp where
  | subscribe (h : Nat) (topic : String)
  | unsubscribe (h : Nat)
  | publish (topic : String) (event : Nat)
  | setBusy (topic : String)
  | clearBusy (topic : String)
  deriving Repr, DecidableEq

/-- Apply one broker operation.  `Subscribe` registers a fresh mailbox;
`Unsubscribe` removes the handle from the topic index (a no-op if absent) and
then unconditionally executes `close(sub.ch)`; `Publish` is non-blocking and
never closes; the busy ops only touch the busy set. -/
def brokerStep (st : BrokerState) (op : BrokerOp) : BrokerState :=
  match op with
  | .subscribe h topic =>
    { st with subs := st.subs ++
        [(h, { topic := topic, registered := true, closeCount := 0 })] }
  | .unsubscribe h =>
    { st with subs := st.subs.map (fun p =>
        if p.1 = h then
          (p.1, { p.2 with registered := false, closeCount := p.2.closeCount + 1 })
        else p) }
  | .publish _ _ => st
  | .setBusy topic =>
    if topic ∈ st.busy then st else { st with busy := st.busy ++ [topic] }
  | .clearBusy topic => { st with busy := st.busy.filter (fun t => t ≠ topic) }

/-- Run a sequence of broker operations. -/
def brokerRun (st : BrokerState) (ops : List BrokerOp) : BrokerState :=
  ops.foldl brokerStep st

/-- How many times handle `h`'s mailbox has been closed in state `st`
(0 when the handle was never subscribed). -/
def closeCountOf (st : BrokerState) (h : Nat) : Nat :=
  ((st.subs.filter (fun p => p.1 = h)).map (fun p => p.2.closeCount)).sum


/-! ## Concrete inputs for the claim witnesses -/

/-- A two-call response used to evaluate the executor theorems, with the
completion order reversed relative to call order. -/
def pairingWitnessOutput : List OutputItem :=
  [{ type := "function_call", id := "f1", callID := "c1",
     name := "fetch_url", arguments := "{}" },
   { type := "message" },
   { type := "function_call", id := "f2", callID := "c2",
     name := "memory_view", arguments := "{}" }]

/-- A concrete handler for the executor witnesses. -/
def pairingWitnessExec : String → String → Except String String :=
  fun n a => .ok (n ++ a)

/-- A one-shot trigger (no cron expression) for the scheduler witnesses. -/
def oneShotTrigger : Trigger :=
  { id := "t1", agentID := "a", prompt := "p", nextRunAt := some "0" }

/-- A cron trigger for the scheduler witnesses. -/
def cronTrigger : Trigger :=
  { id := "t2", agentID := "a", prompt := "p", cronExpr := some "* * * * *" }

/-- The trigger store for the scheduler witnesses. -/
def schedStateW : SchedState :=
  { triggers := [oneShotTrigger, cronTrigger], runs := [] }

/-- A trigger carrying a configured conversation title, the failing input for
the scheduler-title claim. -/
def dailyReportTrigger : Trigger :=
  { id := "t3", agentID := "a", prompt := "p",
    conversationTitle := "Daily report" }

/-- The stored conversation for the title witnesses, with a title already
set. -/
def titledConv : Conversation := { id := "c1", agentID := "a", title := "Kept" }

/-- The stored conversation for the title witnesses, with no title yet. -/
def untitledConv : Conversation := { id := "c1", agentID := "a" }

/-- The per-entry update `Unsubscribe h'` performs on the subscription index. -/
def unsubUpdate (h' : Nat) (p : Nat × SubState) : Nat × SubState :=
  if p.1 = h' then
    (p.1, { p.2 with registered := false, closeCount := p.2.closeCount + 1 })
  else p

end Blippy

/-! ## Model conformance checks

Concrete evaluations of the embedded stdlib models against Go's documented
behavior (`filepath.Clean` examples from the Go documentation) and of the
embedded executor on small inputs. -/
example :
    Blippy.ProcessOutput (fun n a => .ok (n ++ a))
      [{ type := "message" }] [] = .ok [] := by decide
example :
    Blippy.ProcessOutput (fun n a => .ok (n ++ a))
      [{ type := "function_call", id := "f1", callID := "c1", name := "x", arguments := "1" },
       { type := "function_call", id := "f2", callID := "c2", name := "y", arguments := "2" }]
      [1, 0]
    = .ok
      [{ type := "function_call", id := "f1", callID := "c1", name := "x", arguments := "1" },
       { type := "function_call", id := "f2", callID := "c2", name := "y", arguments := "2" },
       { type := "function_call_output", callID := "c1", output := "x1" },
       { type := "function_call_output", callID := "c2", output := "y2" }] := by decide
example : Blippy.goClean "a/c".data = "a/c".data := by decide
example : Blippy.goClean "a//c".data = "a/c".data := by decide
example : Blippy.goClean "a/c/.".data = "a/c".data := by decide
example : Blippy.goClean "a/c/b/..".data = "a/c".data := by decide
example : Blippy.goClean "/../a/c".data = "/a/c".data := by decide
example : Blippy.goClean "/../a/b/../././/c".data = "/a/c".data := by decide
example : Blippy.goClean "a/../../b".data = "../b".data := by decide
example : Blippy.goClean "".data = ".".data := by decide
example : Blippy.goClean "/..".data = "/".data := by decide
example : Blippy.goDir "/a/b".data = "/a".data := by decide
example : Blippy.goDir "a".data = ".".data := by decide
example : Blippy.goDir "/".data = "/".data := by decide
example : Blippy.goJoin "/root".data "x/y".data = "/root/x/y".data := by decide
example :
    Blippy.resolvePath (fun p => .ok p) "/root".data "../../etc/evil".data
      = .error "path traversal is not allowed" := by decide
example :
    Blippy.resolvePath (fun p => .ok p) "/root".data "x".data = .ok "/root/x".data := by decide
example :
    Blippy.resolvePath
      (fun p => if p = "/root".data then .ok p else .ok "/elsewhere".data)
      "/root".data "x".data
      = .error "path escapes root directory" := by decide

example : Blippy.EncodeToolName "notify:general" = "notify__general" := by decide
example : Blippy.DecodeToolName "notify__general" = "notify:general" := by decide
example : Blippy.DecodeToolName (Blippy.EncodeToolName "notify:a:b") = "notify:a__b" := by decide
example : Blippy.EncodeToolName "fetch_url" = "fetch_url" := by decide


namespace Blippy

/-! ## Lemmas about the Go string-replace scan -/

theorem replaceFuel_step_nomatch (old new : List Char) (fuel n : Nat)
    (c : Char) (rest : List Char)
    (h : ¬ (old ≠ [] ∧ old.isPrefixOf (c :: rest))) :
    replaceFuel old new (fuel + 1) (c :: rest) (n + 1)
      = c :: replaceFuel old new fuel rest (n + 1) := by
  rw [replaceFuel]
  show (if _ then _ else _) = _
  rw [if_neg h]

theorem replaceFuel_step_match (old new : List Char) (fuel n : Nat)
    (c : Char) (rest : List Char)
    (h : old ≠ [] ∧ old.isPrefixOf (c :: rest)) :
    replaceFuel old new (fuel + 1) (c :: rest) (n + 1)
      = new ++ replaceFuel old new fuel ((c :: rest).drop old.length) n := by
  rw [replaceFuel]
  show (if _ then _ else _) = _
  rw [if_pos h]

/-- A string with no colon is left unchanged by the `:`-replacement scan,
whatever the fuel and budget. -/
theorem replaceFuel_no_colon (new : List Char) :
    ∀ (fuel n : Nat) (s : List Char), ':' ∉ s →
      replaceFuel [':'] new fuel s n = s := by
  intro fuel
  induction fuel with
  | zero => intro n s _; rfl
  | succ fuel ih =>
    intro n s hs
    match n, s with
    | 0, s => rfl
    | n + 1, [] => rfl
    | n + 1, c :: rest =>
      have hc : c ≠ ':' := fun h => hs (h ▸ List.mem_cons_self c rest)
      have hpre : ¬ ([':'] ≠ [] ∧ [':'].isPrefixOf (c :: rest)) := by
        rintro ⟨-, hp⟩
        simp [List.isPrefixOf] at hp
        exact hc hp.symm
      rw [replaceFuel_step_nomatch _ _ _ _ _ _ hpre,
        ih (n + 1) rest (fun h => hs (List.mem_cons_of_mem c h))]

theorem replaceFuel_budget_zero (old new : List Char) (fuel : Nat)
    (s : List Char) : replaceFuel old new fuel s 0 = s := by
  cases fuel <;> rfl

/-- Encoding `notify:<X>` for a colon-free `X`: the six name characters pass
through, the colon becomes `__`, and `X` is untouched. -/
theorem encode_chars (X : List Char) (hX : ':' ∉ X) (fuel n : Nat) :
    replaceFuel [':'] ('_' :: '_' ::[]) (fuel + 7)
      ('n' :: 'o' :: 't' :: 'i' :: 'f' :: 'y' :: ':' ::X) (n + 1)
      = 'n' :: 'o' :: 't' :: 'i' :: 'f' :: 'y' :: '_' :: '_' ::X := by
  rw [show fuel + 7 = (fuel + 6) + 1 from rfl,
    replaceFuel_step_nomatch _ _ _ _ _ _ (by simp +decide [List.isPrefixOf])]
  rw [show fuel + 6 = (fuel + 5) + 1 from rfl,
    replaceFuel_step_nomatch _ _ _ _ _ _ (by simp +decide [List.isPrefixOf])]
  rw [show fuel + 5 = (fuel + 4) + 1 from rfl,
    replaceFuel_step_nomatch _ _ _ _ _ _ (by simp +decide [List.isPrefixOf])]
  rw [show fuel + 4 = (fuel + 3) + 1 from rfl,
    replaceFuel_step_nomatch _ _ _ _ _ _ (by simp +decide [List.isPrefixOf])]
  rw [show fuel + 3 = (fuel + 2) + 1 from rfl,
    replaceFuel_step_nomatch _ _ _ _ _ _ (by simp +decide [List.isPrefixOf])]
  rw [show fuel + 2 = (fuel + 1) + 1 from rfl,
    replaceFuel_step_nomatch _ _ _ _ _ _ (by simp +decide [List.isPrefixOf])]
  rw [replaceFuel_step_match _ _ _ _ _ _ (by simp [List.isPrefixOf])]
  show _ :: _ :: _ :: _ :: _ :: _ :: '_' :: '_' :: replaceFuel _ _ _ X n = _
  rw [replaceFuel_no_colon _ _ _ _ hX]

/-- Decoding a string that starts with `notify__`: the single allowed
replacement fires at position 0 and the remainder is untouched. -/
theorem decode_chars (X : List Char) (fuel : Nat) :
    replaceFuel "notify__".data "notify:".data (fuel + 1)
      ('n' :: 'o' :: 't' :: 'i' :: 'f' :: 'y' :: '_' :: '_' ::X) 1
      = 'n' :: 'o' :: 't' :: 'i' :: 'f' :: 'y' :: ':' ::X := by
  rw [show (1 : Nat) = 0 + 1 from rfl,
    replaceFuel_step_match _ _ _ _ _ _
      (by simp +decide [List.isPrefixOf, String.data])]
  rw [replaceFuel_budget_zero]
  rfl

/-- C3 (amended): `DecodeToolName (EncodeToolName n) = n` holds for every
registered static tool name, and for `notify:X` whenever the channel name `X`
contains no colon.  (For a channel name containing `:`, the round trip fails:
see the counterexample.) -/
theorem toolName_roundtrip :
    (∀ n ∈ registeredStaticToolNames, DecodeToolName (EncodeToolName n) = n)
    ∧ ∀ X : String, ':' ∉ X.data →
        DecodeToolName (EncodeToolName ("notify:" ++ X)) = "notify:" ++ X := by
  constructor
  · decide
  · intro X hX
    have hdata : ("notify:" ++ X).data
        = 'n' :: 'o' :: 't' :: 'i' :: 'f' :: 'y' :: ':' ::X.data := by
      rw [String.data_append]
      rfl
    have henc : EncodeToolName ("notify:" ++ X)
        = ⟨'n' :: 'o' :: 't' :: 'i' :: 'f' :: 'y' :: '_' :: '_' ::X.data⟩ := by
      apply String.ext
      show replaceFuel ":".data "__".data _ _ _ = _
      rw [hdata]
      exact encode_chars X.data hX (X.data.length + 1) (X.data.length + 7)
    have hdec : DecodeToolName ⟨'n' :: 'o' :: 't' :: 'i' :: 'f' :: 'y' :: '_' :: '_' ::X.data⟩
        = ⟨'n' :: 'o' :: 't' :: 'i' :: 'f' :: 'y' :: ':' ::X.data⟩ := by
      apply String.ext
      exact decode_chars X.data (X.data.length + 8)
    rw [henc, hdec]
    exact String.ext hdata.symm

/-- C3 counterexample: a channel named `a:b` gives the dynamic tool name
`notify:a:b`; encoding rewrites both colons but decoding restores only the
first, so the round trip is not the identity on this registered-form name. -/
theorem toolName_roundtrip_colon_counterexample :
    DecodeToolName (EncodeToolName "notify:a:b") = "notify:a__b"
    ∧ DecodeToolName (EncodeToolName "notify:a:b") ≠ "notify:a:b" := by
  constructor <;> decide

/-- C3 witness: the amended round trip evaluated at `fetch_url` and at the
colon-free channel name `general`. -/
theorem toolName_roundtrip_witness :
    DecodeToolName (EncodeToolName "fetch_url") = "fetch_url"
    ∧ DecodeToolName (EncodeToolName ("notify:" ++ "general"))
        = "notify:" ++ "general" :=
  ⟨toolName_roundtrip.1 "fetch_url" (by decide),
   toolName_roundtrip.2 "general" (by decide)⟩

end Blippy


namespace Blippy

/-- C2: the shared path-resolution routines of the filesystem tools
(`resolvePath`, used by fs_view / fs_str_replace / fs_insert, and
`resolvePathForCreate`, used by fs_create) (i) reject every absolute input
path, (ii) reject every input whose cleaned form is `..` or starts with
`../`, (iii) only ever succeed with a target equal to or strictly below the
symlink-resolved root, (iv) reject a symlink-resolved target outside the
root, and (v) for creation validate the nearest existing ancestor of the
target against the root. -/
theorem resolvePath_safety
    (evalSymlinks : Path → Except String Path) (stat : Path → Bool)
    (root rel : Path) :
    (isAbs rel = true →
      resolvePath evalSymlinks root rel = .error "absolute paths are not allowed"
      ∧ resolvePathForCreate evalSymlinks stat root rel
          = .error "absolute paths are not allowed")
    ∧ ((goClean rel = ['.', '.'] ∨ ['.', '.', '/'] <+: goClean rel) →
      (∃ e, resolvePath evalSymlinks root rel = .error e)
      ∧ ∃ e, resolvePathForCreate evalSymlinks stat root rel = .error e)
    ∧ (∀ r, resolvePath evalSymlinks root rel = .ok r →
      ∃ absRoot, evalSymlinks root = .ok absRoot
        ∧ (r = absRoot ∨ (absRoot ++ ['/']) <+: r))
    ∧ (∀ resolved absRoot,
      evalSymlinks (goJoin root (goClean rel)) = .ok resolved →
      evalSymlinks root = .ok absRoot →
      ¬ (absRoot ++ ['/']) <+: resolved → resolved ≠ absRoot →
      isAbs rel = false →
      ¬ (goClean rel = ['.', '.'] ∨ ['.', '.', '/'] <+: goClean rel) →
      resolvePath evalSymlinks root rel = .error "path escapes root directory")
    ∧ (∀ t, resolvePathForCreate evalSymlinks stat root rel = .ok t →
      ∃ absRoot resolvedAncestor,
        evalSymlinks root = .ok absRoot
        ∧ evalSymlinks (findExistingAncestor stat absRoot
            ((goJoin absRoot (goClean rel)).length + 2)
            (goDir (goJoin absRoot (goClean rel)))) = .ok resolvedAncestor
        ∧ (resolvedAncestor = absRoot
            ∨ (absRoot ++ ['/']) <+: resolvedAncestor)
        ∧ t = goJoin absRoot (goClean rel)) := by
  refine ⟨?_, ?_, ?_, ?_, ?_⟩
  · intro habs
    constructor
    · simp [resolvePath, habs]
    · simp [resolvePathForCreate, habs]
  · intro htrav
    by_cases habs : isAbs rel
    · exact ⟨⟨"absolute paths are not allowed", by simp [resolvePath, habs]⟩,
        ⟨"absolute paths are not allowed",
          by simp [resolvePathForCreate, habs]⟩⟩
    · exact ⟨⟨"path traversal is not allowed",
          by simp [resolvePath, habs, htrav]⟩,
        ⟨"path traversal is not allowed",
          by simp [resolvePathForCreate, habs, htrav]⟩⟩
  · intro r hr
    by_cases habs : isAbs rel
    · simp [resolvePath, habs] at hr
    · by_cases htrav :
        (goClean rel = ['.', '.'] ∨ ['.', '.', '/'] <+: goClean rel)
      · simp [resolvePath, habs, htrav] at hr
      · simp only [resolvePath, habs, Bool.false_eq_true, if_false] at hr
        rw [if_neg (by simpa using htrav)] at hr
        rcases hjoin : evalSymlinks (goJoin root (goClean rel)) with e | resolved
        · rw [hjoin] at hr
          simp at hr
        · simp only [hjoin] at hr
          rcases hroot : evalSymlinks root with e | absRoot
          · simp only [hroot] at hr
            simp at hr
          · simp only [hroot] at hr
            refine ⟨absRoot, rfl, ?_⟩
            by_cases hesc :
              (¬ (absRoot ++ ['/']) <+: resolved ∧ resolved ≠ absRoot)
            · rw [if_pos (by simpa using hesc)] at hr
              simp at hr
            · rw [if_neg (by simpa using hesc)] at hr
              have hr' : resolved = r := by
                injection hr
              rcases not_and_or.mp hesc with h | h
              · exact Or.inr (hr' ▸ of_not_not h)
              · exact Or.inl (hr'.symm.trans (of_not_not h))
  · intro resolved absRoot hjoin hroot hpre hne habs htrav
    simp only [resolvePath, habs, Bool.false_eq_true, if_false]
    rw [if_neg (by simpa using htrav)]
    simp only [hjoin, hroot]
    rw [if_pos (by simpa using And.intro hpre hne)]
  · intro t ht
    by_cases habs : isAbs rel
    · simp [resolvePathForCreate, habs] at ht
    · by_cases htrav :
        (goClean rel = ['.', '.'] ∨ ['.', '.', '/'] <+: goClean rel)
      · simp [resolvePathForCreate, habs, htrav] at ht
      · simp only [resolvePathForCreate, habs, Bool.false_eq_true,
          if_false] at ht
        rw [if_neg (by simpa using htrav)] at ht
        rcases hroot : evalSymlinks root with e | absRoot
        · rw [hroot] at ht
          simp at ht
        · simp only [hroot] at ht
          rcases hanc : evalSymlinks (findExistingAncestor stat absRoot
              ((goJoin absRoot (goClean rel)).length + 2)
              (goDir (goJoin absRoot (goClean rel)))) with e | resolvedAncestor
          · simp only [hanc] at ht
            simp at ht
          · simp only [hanc] at ht
            by_cases hesc :
              (¬ (absRoot ++ ['/']) <+: resolvedAncestor
                ∧ resolvedAncestor ≠ absRoot)
            · rw [if_pos (by simpa using hesc)] at ht
              simp at ht
            · rw [if_neg (by simpa using hesc)] at ht
              have ht' : goJoin absRoot (goClean rel) = t := by
                injection ht
              refine ⟨absRoot, resolvedAncestor, rfl, hanc, ?_, ht'.symm⟩
              rcases not_and_or.mp hesc with h | h
              · exact Or.inr (of_not_not h)
              · exact Or.inl (of_not_not h)

end Blippy


namespace Blippy

/-! ## Lemmas about `ProcessOutput`'s index-addressed collection -/

theorem foldl_set_length (f : Nat → Input) :
    ∀ (order : List Nat) (acc : List Input),
      (order.foldl (fun a i => a.set i (f i)) acc).length = acc.length := by
  intro order
  induction order with
  | nil => intro acc; rfl
  | cons i rest ih =>
    intro acc
    rw [List.foldl_cons, ih, List.length_set]

/-- Writing `f i` into slot `i` for every `i` of `order`: slot `j` ends up
holding `f j` when `j` was written (in range), and its original content
otherwise — regardless of the order of the writes. -/
theorem foldl_set_getElem? (f : Nat → Input) :
    ∀ (order : List Nat) (acc : List Input) (j : Nat),
      (order.foldl (fun a i => a.set i (f i)) acc)[j]?
        = if j ∈ order ∧ j < acc.length then some (f j) else acc[j]? := by
  intro order
  induction order with
  | nil => intro acc j; simp
  | cons i rest ih =>
    intro acc j
    rw [List.foldl_cons, ih]
    by_cases hjr : j ∈ rest ∧ j < (acc.set i (f i)).length
    · rw [if_pos hjr, if_pos ⟨List.mem_cons_of_mem i hjr.1, by
        simpa [List.length_set] using hjr.2⟩]
    · rw [if_neg hjr]
      by_cases hji : j = i
      · subst hji
        by_cases hlt : j < acc.length
        · rw [List.getElem?_set_self hlt, if_pos ⟨List.mem_cons_self j rest, hlt⟩]
        · have hge : acc.length ≤ j := Nat.le_of_not_lt hlt
          have h1 : (acc.set j (f j))[j]? = none :=
            List.getElem?_eq_none_iff.mpr (by simpa [List.length_set] using hge)
          have h2 : acc[j]? = none := List.getElem?_eq_none_iff.mpr hge
          rw [h1, if_neg (fun h => hlt h.2), h2]
      · rw [List.getElem?_set_ne (fun h => hji h.symm)]
        rw [if_neg]
        rintro ⟨hmem, hlt⟩
        rcases List.mem_cons.mp hmem with h | h
        · exact hji h
        · exact hjr ⟨h, by simpa [List.length_set] using hlt⟩

/-- As long as the completion order reaches every call index, the collected
output slots equal the outputs in original call order — completion order is
irrelevant. -/
theorem collectOutputs_eq_map (exec : String → String → Except String String)
    (toolCalls : List OutputItem) (order : List Nat)
    (h : ∀ j < toolCalls.length, j ∈ order) :
    collectOutputs exec toolCalls order
      = toolCalls.map (outputInputOf exec) := by
  apply List.ext_getElem?
  intro j
  unfold collectOutputs
  rw [foldl_set_getElem?]
  by_cases hj : j < toolCalls.length
  · rw [if_pos ⟨h j hj, by simpa using hj⟩, List.getElem?_map,
      List.getElem?_eq_getElem hj]
    simp [List.getD, List.getElem?_eq_getElem hj]
  · rw [if_neg (fun hc => hj (by simpa using hc.2))]
    have h1 : (List.replicate toolCalls.length (default : Input))[j]? = none :=
      List.getElem?_eq_none_iff.mpr (by simpa using Nat.le_of_not_lt hj)
    have h2 : (toolCalls.map (outputInputOf exec))[j]? = none :=
      List.getElem?_eq_none_iff.mpr (by simpa using Nat.le_of_not_lt hj)
    rw [h1, h2]

end Blippy


namespace Blippy

/-- C1: for every response output and every completion order that reaches all
call indices, `ProcessOutput` returns the empty continuation when there are no
`function_call` items, and otherwise the echoes in original call order
followed by exactly one `function_call_output` per call — the output of call
`i` sits at position `i + number-of-calls`, and (for distinct call ids) each
call id has exactly one `function_call_output`, independent of completion
order. -/
theorem ProcessOutput_pairing (exec : String → String → Except String String)
    (output : List OutputItem) (order : List Nat)
    (horder : ∀ j < (functionCalls output).length, j ∈ order) :
    (functionCalls output = [] → ProcessOutput exec output order = .ok [])
    ∧ ProcessOutput exec output order = .ok (continuation exec output)
    ∧ (∀ i < (functionCalls output).length,
        (continuation exec output)[i]?
          = some (echoInput ((functionCalls output).getD i default))
        ∧ (continuation exec output)[(functionCalls output).length + i]?
          = some (outputInputOf exec ((functionCalls output).getD i default)))
    ∧ (((functionCalls output).map (fun c => c.callID)).Nodup →
        ∀ i < (functionCalls output).length,
          (continuation exec output).countP (fun inp =>
            inp.type == "function_call_output"
              && inp.callID == ((functionCalls output).getD i default).callID)
            = 1) := by
  refine ⟨?_, ?_, ?_, ?_⟩
  · intro hempty
    unfold ProcessOutput
    rw [if_pos (by rw [hempty]; rfl)]
  · unfold ProcessOutput continuation
    by_cases hk : (functionCalls output).length = 0
    · rw [if_pos hk]
      rw [List.length_eq_zero] at hk
      rw [hk]
      rfl
    · rw [if_neg hk, collectOutputs_eq_map exec (functionCalls output) order horder]
  · intro i hi
    constructor
    · rw [continuation, List.getElem?_append_left (by simpa using hi),
        List.getElem?_map, List.getElem?_eq_getElem hi]
      simp [List.getD, List.getElem?_eq_getElem hi]
    · rw [continuation, List.getElem?_append_right
        (by simp [Nat.le_add_right])]
      have hsub : (functionCalls output).length + i
          - ((functionCalls output).map echoInput).length = i := by
        simp
      rw [hsub, List.getElem?_map, List.getElem?_eq_getElem hi]
      simp [List.getD, List.getElem?_eq_getElem hi]
  · intro hnodup i hi
    rw [continuation, List.countP_append]
    have hzero : ((functionCalls output).map echoInput).countP (fun inp =>
        inp.type == "function_call_output"
          && inp.callID == ((functionCalls output).getD i default).callID)
        = 0 := by
      apply List.countP_eq_zero.mpr
      intro a ha
      rcases List.mem_map.mp ha with ⟨c, -, rfl⟩
      simp [echoInput]
    have hone : ((functionCalls output).map (outputInputOf exec)).countP (fun inp =>
        inp.type == "function_call_output"
          && inp.callID == ((functionCalls output).getD i default).callID)
        = 1 := by
      rw [List.countP_map]
      have hcong : ((functionCalls output).countP ((fun inp =>
            inp.type == "function_call_output"
              && inp.callID == ((functionCalls output).getD i default).callID)
          ∘ outputInputOf exec))
          = ((functionCalls output).map (fun c => c.callID)).countP
              (fun x => x == ((functionCalls output).getD i default).callID) := by
        rw [List.countP_map]
        apply List.countP_congr
        intro c _
        simp [outputInputOf, Function.comp]
      rw [hcong]
      have hmem : ((functionCalls output).getD i default).callID
          ∈ (functionCalls output).map (fun c => c.callID) :=
        List.mem_map.mpr ⟨(functionCalls output).getD i default,
          by rw [List.getD_eq_getElem _ _ hi]; exact List.getElem_mem hi, rfl⟩
      exact List.count_eq_one_of_mem hnodup hmem
    rw [hzero, hone]

end Blippy


namespace Blippy

/-- C1 witness: the pairing theorem applied to a concrete two-call response
whose handlers complete in reverse order (`[1, 0]`). -/
theorem ProcessOutput_pairing_witness :
    ProcessOutput pairingWitnessExec pairingWitnessOutput [1, 0]
        = .ok (continuation pairingWitnessExec pairingWitnessOutput)
    ∧ (continuation pairingWitnessExec pairingWitnessOutput)[(functionCalls
        pairingWitnessOutput).length + 0]?
      = some (outputInputOf pairingWitnessExec
          ((functionCalls pairingWitnessOutput).getD 0 default)) :=
  ⟨(ProcessOutput_pairing pairingWitnessExec pairingWitnessOutput [1, 0]
      (by decide)).2.1,
   ((ProcessOutput_pairing pairingWitnessExec pairingWitnessOutput [1, 0]
      (by decide)).2.2.1 0 (by decide)).2⟩

/-- C8: every tool-call worker of `ProcessOutput` records `"Error: <message>"`
when the handler returns an error, records `"(no output)"` when the handler
returns an empty string without error, the recorded `function_call_output`
carries exactly this worker text, and `ProcessOutput` itself never propagates
a handler failure as an error. -/
theorem toolFailure_surfaced
    (exec : String → String → Except String String) (call : OutputItem)
    (e : String) :
    (exec (DecodeToolName call.name) call.arguments = .error e →
      workerOutput exec call = "Error: " ++ e)
    ∧ (exec (DecodeToolName call.name) call.arguments = .ok "" →
      workerOutput exec call = "(no output)")
    ∧ (outputInputOf exec call).output = workerOutput exec call
    ∧ ∀ (output : List OutputItem) (order : List Nat),
        ∃ inputs, ProcessOutput exec output order = .ok inputs := by
  refine ⟨?_, ?_, rfl, ?_⟩
  · intro h
    unfold workerOutput
    rw [h]
    have hne : ("Error: " ++ e) ≠ "" := by
      intro hc
      have h2 := congrArg String.length hc
      rw [String.length_append] at h2
      have h7 : "Error: ".length = 7 := rfl
      have h0 : "".length = 0 := rfl
      rw [h7, h0] at h2
      omega
    rw [if_neg hne]
  · intro h
    unfold workerOutput
    rw [h]
    rfl
  · intro output order
    unfold ProcessOutput
    by_cases hk : (functionCalls output).length = 0
    · exact ⟨[], by rw [if_pos hk]⟩
    · exact ⟨_, by rw [if_neg hk]⟩

/-- C8 witness: a failing handler and an empty-result handler evaluated on a
concrete call. -/
theorem toolFailure_surfaced_witness :
    workerOutput (fun _ _ => .error "boom") { name := "fetch_url" }
        = "Error: " ++ "boom"
    ∧ workerOutput (fun _ _ => .ok "") { name := "fetch_url" }
        = "(no output)" :=
  ⟨(toolFailure_surfaced (fun _ _ => .error "boom") { name := "fetch_url" }
      "boom").1 rfl,
   (toolFailure_surfaced (fun _ _ => .ok "") { name := "fetch_url" }
      "ignored").2.1 rfl⟩

end Blippy


namespace Blippy

/-- C2 witness: the safety theorem evaluated with the identity symlink oracle —
an absolute input, a traversal input, and a successful in-root resolution. -/
theorem resolvePath_safety_witness :
    (resolvePath Except.ok "/root".data "/abs".data
        = .error "absolute paths are not allowed")
    ∧ (∃ e, resolvePath Except.ok "/root".data "../etc".data = .error e)
    ∧ ∃ absRoot, (Except.ok "/root".data : Except String Path) = .ok absRoot
        ∧ ("/root/x".data = absRoot ∨ (absRoot ++ ['/']) <+: "/root/x".data) :=
  ⟨((resolvePath_safety Except.ok (fun _ => true) "/root".data "/abs".data).1
      (by decide)).1,
   ((resolvePath_safety Except.ok (fun _ => true) "/root".data "../etc".data).2.1
      (by decide)).1,
   (resolvePath_safety Except.ok (fun _ => true) "/root".data "x".data).2.2.1
      "/root/x".data (by decide)⟩

/-- C4: `Runner.Run` returns a max-depth error exactly when the supplied depth
exceeds `DefaultMaxDepth` (and then before creating any conversation — the
state is not extended); every conversation a successful run adds was created
at the run's depth, which is within the bound; and the `call_agent` handler
invokes the runner with the caller's depth plus one, re-checking the bound
first and refusing with the max-depth message when it is exceeded. -/
theorem run_depth_bound (getAgent : String → Except String Agent)
    (turn : Except String String) (newID now : String)
    (opts : RunOpts) (st : RunnerState) :
    ((∃ d m, (runnerRun getAgent turn newID now opts st).1
        = .error (.maxDepthExceeded d m)) ↔ opts.depth > DefaultMaxDepth)
    ∧ (opts.depth > DefaultMaxDepth →
        runnerRun getAgent turn newID now opts st
          = (.error (.maxDepthExceeded opts.depth DefaultMaxDepth), st))
    ∧ (∀ c ∈ (runnerRun getAgent turn newID now opts st).2.conversations,
        c ∉ st.conversations →
          c.createdAtDepth = opts.depth ∧ opts.depth ≤ DefaultMaxDepth)
    ∧ (∀ (runAgent : String → String → Nat → String → Except String String)
          (ctxAgentID : String) (ctxDepth : Nat) (args : CallAgentArgs),
        (if args.agentID = "" then ctxAgentID else args.agentID) ≠ "" →
        args.prompt ≠ "" →
        (ctxDepth + 1 > DefaultMaxDepth →
          callAgentHandler runAgent ctxAgentID ctxDepth args
            = .error ("max agent depth exceeded ("
                ++ toString DefaultMaxDepth ++ ")"))
        ∧ (ctxDepth + 1 ≤ DefaultMaxDepth →
          callAgentHandler runAgent ctxAgentID ctxDepth args
            = match runAgent
                (if args.agentID = "" then ctxAgentID else args.agentID)
                args.prompt (ctxDepth + 1) args.model with
              | .error e => .ok ("Error calling agent: " ++ e)
              | .ok response => .ok response)) := by
  refine ⟨⟨?_, ?_⟩, ?_, ?_, ?_⟩
  · rintro ⟨d, m, h⟩
    by_contra hle
    rw [runnerRun, if_neg hle] at h
    rcases hagent : getAgent opts.agentID with e | agent
    · rw [hagent] at h
      exact RunError.noConfusion (Except.error.inj h)
    · rw [hagent] at h
      rcases turn with e | response
      · exact RunError.noConfusion (Except.error.inj h)
      · exact Except.noConfusion h
  · intro hgt
    exact ⟨opts.depth, DefaultMaxDepth, by rw [runnerRun, if_pos hgt]⟩
  · intro hgt
    rw [runnerRun, if_pos hgt]
  · intro c hc hnot
    by_cases hgt : opts.depth > DefaultMaxDepth
    · rw [runnerRun, if_pos hgt] at hc
      exact absurd hc hnot
    · rw [runnerRun, if_neg hgt] at hc
      rcases hagent : getAgent opts.agentID with e | agent
      · rw [hagent] at hc
        exact absurd hc hnot
      · rw [hagent] at hc
        have hc' : c ∈ st.conversations ++
            [{ id := newID, agentID := opts.agentID, title := opts.title,
               previousResponseID := "", createdAt := now, updatedAt := now,
               createdAtDepth := opts.depth }] := by
          rcases turn with e | response
          · exact hc
          · exact hc
        rcases List.mem_append.mp hc' with hmem | hmem
        · exact absurd hmem hnot
        · rcases List.mem_singleton.mp hmem with rfl
          exact ⟨rfl, Nat.le_of_not_lt hgt⟩
  · intro runAgent ctxAgentID ctxDepth args hid hprompt
    constructor
    · intro hdeep
      rw [callAgentHandler]
      rw [if_neg hid, if_neg hprompt, if_pos hdeep]
    · intro hok
      rw [callAgentHandler]
      rw [if_neg hid, if_neg hprompt, if_neg (Nat.not_lt.mpr hok)]

/-- C4 witness: depth 6 is refused by the runner with the max-depth error, and
the `call_agent` handler at context depth 5 refuses before invoking the
runner. -/
theorem run_depth_bound_witness :
    runnerRun (fun _ => .ok { id := "a" }) (.ok "done") "cid" "t0"
        { agentID := "a", prompt := "p", depth := 6 } { conversations := [] }
      = (.error (.maxDepthExceeded 6 DefaultMaxDepth), { conversations := [] })
    ∧ callAgentHandler (fun _ _ _ _ => .ok "r") "a" 5 { prompt := "p" }
      = .error ("max agent depth exceeded ("
          ++ toString DefaultMaxDepth ++ ")") :=
  ⟨(run_depth_bound (fun _ => .ok { id := "a" }) (.ok "done") "cid" "t0"
      { agentID := "a", prompt := "p", depth := 6 } { conversations := [] }).2.1
      (by decide),
   ((run_depth_bound (fun _ => .ok { id := "a" }) (.ok "done") "cid" "t0"
      { agentID := "a", prompt := "p", depth := 6 } { conversations := [] }).2.2.2
      (fun _ _ _ _ => .ok "r") "a" 5 { prompt := "p" }
      (by decide) (by decide)).1 (by decide)⟩

/-- C10: when the nested `RunAgent` call fails, the `call_agent` handler
returns the text `"Error calling agent: <message>"` with a nil error, so the
parent turn sees an ordinary tool result instead of aborting. -/
theorem callAgent_failure_surfaced
    (runAgent : String → String → Nat → String → Except String String)
    (ctxAgentID : String) (ctxDepth : Nat) (args : CallAgentArgs) (e : String)
    (hid : (if args.agentID = "" then ctxAgentID else args.agentID) ≠ "")
    (hprompt : args.prompt ≠ "")
    (hdepth : ctxDepth + 1 ≤ DefaultMaxDepth)
    (hrun : runAgent (if args.agentID = "" then ctxAgentID else args.agentID)
        args.prompt (ctxDepth + 1) args.model = .error e) :
    callAgentHandler runAgent ctxAgentID ctxDepth args
      = .ok ("Error calling agent: " ++ e) := by
  simp only [callAgentHandler]
  rw [if_neg hid, if_neg hprompt, if_neg (Nat.not_lt.mpr hdepth), hrun]

/-- C10 witness: a subagent run failing with message `boom`, surfaced as
tool-result text. -/
theorem callAgent_failure_surfaced_witness :
    callAgentHandler (fun _ _ _ _ => .error "boom") "agent-1" 0 { prompt := "p" }
      = .ok ("Error calling agent: " ++ "boom") :=
  callAgent_failure_surfaced (fun _ _ _ _ => .error "boom") "agent-1" 0
    { prompt := "p" } "boom" (by decide) (by decide) (by decide) rfl

/-- C5: after `executeTrigger` runs a due trigger — whatever the run outcome —
a trigger without a cron expression is deleted from the store, while a trigger
with a cron expression keeps its row (all trigger ids are preserved) and, when
the expression parses, carries the schedule's next occurrence as its new
`next_run_at`. -/
theorem oneShot_trigger_deleted (parseCron : String → Option (Nat → Nat))
    (fmt : Nat → String) (run : RunOpts → Except String RunResult)
    (now : Nat) (runID : String) (trigger : Trigger) (st : SchedState) :
    (trigger.hasCron = false →
      ∀ t ∈ (executeTrigger parseCron fmt run now runID trigger st).triggers,
        t.id ≠ trigger.id)
    ∧ (trigger.hasCron = true →
        ((executeTrigger parseCron fmt run now runID trigger st).triggers.map
            (fun t => t.id)
          = st.triggers.map (fun t => t.id))
        ∧ ∀ next, parseCron ((trigger.cronExpr).getD "") = some next →
            ∀ t ∈ (executeTrigger parseCron fmt run now runID trigger st).triggers,
              t.id = trigger.id → t.nextRunAt = some (fmt (next now))) := by
  constructor
  · intro hc t ht
    simp only [executeTrigger, hc, Bool.false_eq_true, if_false] at ht
    exact of_decide_eq_true (List.mem_filter.mp ht).2
  · intro hc
    constructor
    · simp only [executeTrigger, hc, if_true]
      rcases parseCron ((trigger.cronExpr).getD "") with _ | next
      · rfl
      · rw [List.map_map]
        apply List.map_congr_left
        intro t _
        by_cases hid : t.id = trigger.id <;> simp [hid]
    · intro next hnext t ht hid
      simp only [executeTrigger, hc, if_true, hnext] at ht
      rcases List.mem_map.mp ht with ⟨t0, ht0, rfl⟩
      by_cases h0 : t0.id = trigger.id
      · simp [h0]
      · rw [if_neg h0] at hid ⊢
        exact absurd hid h0

end Blippy


namespace Blippy

/-- C5 witness: a failed run of the one-shot trigger still deletes its row,
and a run of the cron trigger leaves it with the schedule's next occurrence. -/
theorem oneShot_trigger_deleted_witness :
    (∀ t ∈ (executeTrigger (fun _ => some (fun t => t + 60)) toString
        (fun _ => .error "llm failed") 0 "r1" oneShotTrigger
        schedStateW).triggers, t.id ≠ oneShotTrigger.id)
    ∧ ∀ t ∈ (executeTrigger (fun _ => some (fun t => t + 60)) toString
        (fun _ => .error "llm failed") 0 "r1" cronTrigger
        schedStateW).triggers,
        t.id = cronTrigger.id → t.nextRunAt = some (toString (0 + 60)) :=
  ⟨(oneShot_trigger_deleted (fun _ => some (fun t => t + 60)) toString
      (fun _ => .error "llm failed") 0 "r1" oneShotTrigger schedStateW).1
      (by decide),
   ((oneShot_trigger_deleted (fun _ => some (fun t => t + 60)) toString
      (fun _ => .error "llm failed") 0 "r1" cronTrigger schedStateW).2
      (by decide)).2 (fun t => t + 60) rfl⟩

/-- C6: the `RunOpts` literal `Scheduler.executeTrigger` passes to
`Runner.Run` carries the trigger's agent id, prompt, depth 0 and model — but
its `Title` field is never set, so it is the Go zero value `""` and in
particular differs from a trigger's non-empty configured conversation
title. -/
theorem trigger_title_not_passed :
    (∀ t : Trigger,
      (triggerRunOpts t).agentID = t.agentID
      ∧ (triggerRunOpts t).prompt = t.prompt
      ∧ (triggerRunOpts t).depth = 0
      ∧ (triggerRunOpts t).model = t.model
      ∧ (triggerRunOpts t).title = "")
    ∧ (triggerRunOpts dailyReportTrigger).title
        ≠ dailyReportTrigger.conversationTitle :=
  ⟨fun _ => ⟨rfl, rfl, rfl, rfl, rfl⟩, by decide⟩

/-- C7: `finishTurn` never clears a non-empty conversation title: title
generation is attempted exactly when an assistant message was produced, the
stored title is empty and the user text is non-empty; a produced title is
written, a failed generation writes nothing, and in every case a non-empty
stored title is preserved verbatim. -/
theorem title_monotone (genTitle : Except String String) (conv : Conversation)
    (userContent : String) (items : List StoredItem) (responseID : String) :
    (conv.title ≠ "" →
      (finishTurn genTitle conv userContent items responseID).conv.title
        = conv.title)
    ∧ ((finishTurn genTitle conv userContent items responseID).generateAttempted
          = true
        ↔ items.length ≠ 0 ∧ conv.title = "" ∧ userContent ≠ "")
    ∧ (∀ t, conv.title = "" → userContent ≠ "" → items.length ≠ 0 →
        genTitle = .ok t → t ≠ "" →
        (finishTurn genTitle conv userContent items responseID).conv.title = t)
    ∧ (∀ e, genTitle = .error e →
        (finishTurn genTitle conv userContent items responseID).conv.title
          = conv.title) := by
  refine ⟨?_, ?_, ?_, ?_⟩
  · intro hne
    by_cases hitems : items.length = 0
    · simp [finishTurn, hitems]
    · simp only [finishTurn, hitems, if_false]
      rw [if_neg hne]
      by_cases hresp : responseID ≠ ""
      · rw [if_pos (Or.inl hresp)]
        simp
      · rw [if_neg (by simp [hresp])]
  · by_cases hitems : items.length = 0
    · simp [finishTurn, hitems]
    · simp only [finishTurn]
      rw [if_neg hitems]
      simp [hitems, decide_eq_true_iff]
  · intro t htitle huser hitems hgen hne
    simp only [finishTurn, hgen]
    rw [if_neg hitems, if_pos htitle, if_pos huser]
    rw [if_pos (Or.inr hne)]
    simp [hne]
  · intro e hgen
    by_cases hitems : items.length = 0
    · simp [finishTurn, hitems]
    · simp only [finishTurn, hgen]
      rw [if_neg hitems]
      by_cases htitle : conv.title = ""
      · rw [if_pos htitle]
        by_cases huser : userContent ≠ ""
        · rw [if_pos huser]
          by_cases hresp : responseID ≠ ""
          · rw [if_pos (Or.inl hresp)]
            simp [htitle]
          · rw [if_neg (by simp [hresp])]
        · rw [if_neg huser]
          by_cases hresp : responseID ≠ ""
          · rw [if_pos (Or.inl hresp)]
            simp [htitle]
          · rw [if_neg (by simp [hresp])]
      · rw [if_neg htitle]
        by_cases hresp : responseID ≠ ""
        · rw [if_pos (Or.inl hresp)]
          simp
        · rw [if_neg (by simp [hresp])]

/-- C7 witness: a conversation whose stored title is non-empty keeps it even
when a fresh title generation result is available, and an empty title is set
from a successful generation. -/
theorem title_monotone_witness :
    (finishTurn (.ok "New Title") titledConv "hi"
        [{ type := "text", text := "x" }] "resp").conv.title = "Kept"
    ∧ (finishTurn (.ok "Fresh Title") untitledConv "hi"
        [{ type := "text", text := "x" }] "resp").conv.title = "Fresh Title" :=
  ⟨(title_monotone (.ok "New Title") titledConv "hi"
      [{ type := "text", text := "x" }] "resp").1 (by decide),
   (title_monotone (.ok "Fresh Title") untitledConv "hi"
      [{ type := "text", text := "x" }] "resp").2.2.1 "Fresh Title"
      rfl (by decide) (by decide) rfl (by decide)⟩

end Blippy


namespace Blippy

/-- C9 counterexample: `Unsubscribe` runs `close(sub.ch)` unconditionally, so
calling it twice on the same handle executes a second close on the mailbox
(in Go, close of a closed channel panics) — the channel is not closed exactly
once under repeated `Unsubscribe` calls. -/
theorem broker_double_unsubscribe_counterexample :
    closeCountOf (brokerRun { subs := [], busy := [] }
      [.subscribe 0 "conv", .unsubscribe 0, .unsubscribe 0]) 0 = 2
    ∧ closeCountOf (brokerRun { subs := [], busy := [] }
      [.subscribe 0 "conv", .unsubscribe 0, .unsubscribe 0]) 0 ≠ 1 := by
  constructor <;> decide

theorem brokerStep_unsub_eq (st : BrokerState) (h' : Nat) :
    brokerStep st (.unsubscribe h') = { st with subs := st.subs.map (unsubUpdate h') } := rfl

/-- Unsubscribing handle `h` bumps the summed close count of `h` by the number
of index entries for `h`. -/
theorem closeCount_list_unsub_self (h : Nat) :
    ∀ l : List (Nat × SubState),
      (((l.map (unsubUpdate h)).filter (fun p => p.1 = h)).map
        (fun p => p.2.closeCount)).sum
      = ((l.filter (fun p => p.1 = h)).map (fun p => p.2.closeCount)).sum
        + l.countP (fun p => p.1 = h) := by
  intro l
  induction l with
  | nil => rfl
  | cons a rest ih =>
    by_cases ha : a.1 = h
    · simp [unsubUpdate, ha, ih]
      omega
    · simp [unsubUpdate, ha, ih]

/-- Unsubscribing a different handle leaves `h`'s close count alone. -/
theorem closeCount_list_unsub_other (h h' : Nat) (hne : h' ≠ h) :
    ∀ l : List (Nat × SubState),
      (((l.map (unsubUpdate h')).filter (fun p => p.1 = h)).map
        (fun p => p.2.closeCount)).sum
      = ((l.filter (fun p => p.1 = h)).map (fun p => p.2.closeCount)).sum := by
  intro l
  induction l with
  | nil => rfl
  | cons a rest ih =>
    by_cases ha' : a.1 = h'
    · have ha : ¬ a.1 = h := fun hh => hne (ha' ▸ hh ▸ rfl)
      simp [unsubUpdate, ha', ha, hne, Ne.symm hne, ih]
    · by_cases ha : a.1 = h <;>
        simp [unsubUpdate, ha', ha, hne, Ne.symm hne, ih]

/-- A broker step that is not a subscription of handle `h` preserves the
number of index entries for `h`. -/
theorem countP_subs_step (st : BrokerState) (op : BrokerOp) (h : Nat)
    (hop : ∀ topic, op ≠ .subscribe h topic) :
    (brokerStep st op).subs.countP (fun p => p.1 = h)
      = st.subs.countP (fun p => p.1 = h) := by
  cases op with
  | subscribe h' topic =>
    have hne : ¬ (h' = h) := fun hh => hop topic (by rw [hh])
    simp [brokerStep, List.countP_append, hne]
  | unsubscribe h' =>
    rw [brokerStep_unsub_eq]
    show (st.subs.map (unsubUpdate h')).countP _ = _
    rw [List.countP_map]
    apply List.countP_congr
    intro p _
    by_cases hp : p.1 = h' <;> simp [unsubUpdate, hp, Function.comp]
  | publish topic event => rfl
  | setBusy topic =>
    by_cases ht : topic ∈ st.busy <;> simp [brokerStep, ht]
  | clearBusy topic => rfl

/-- One broker step changes `h`'s close count by one exactly on
`Unsubscribe h` (given a single index entry for `h`), and not at all
otherwise. -/
theorem closeCountOf_step (st : BrokerState) (op : BrokerOp) (h : Nat)
    (hsingle : st.subs.countP (fun p => p.1 = h) = 1) :
    closeCountOf (brokerStep st op) h
      = closeCountOf st h + (if op = .unsubscribe h then 1 else 0) := by
  cases op with
  | subscribe h' topic =>
    simp [brokerStep, closeCountOf, List.filter_append]
    by_cases hh : h' = h <;> simp [hh]
  | unsubscribe h' =>
    rw [brokerStep_unsub_eq]
    by_cases hh : h' = h
    · subst hh
      show ((((st.subs.map (unsubUpdate h')).filter (fun p => p.1 = h')).map
          (fun p => p.2.closeCount)).sum) = _
      rw [closeCount_list_unsub_self h' st.subs, hsingle]
      simp [closeCountOf]
    · show ((((st.subs.map (unsubUpdate h')).filter (fun p => p.1 = h)).map
          (fun p => p.2.closeCount)).sum) = _
      rw [closeCount_list_unsub_other h h' hh st.subs]
      simp [closeCountOf, hh]
  | publish topic event => simp [brokerStep, closeCountOf]
  | setBusy topic =>
    by_cases ht : topic ∈ st.busy <;> simp [brokerStep, ht, closeCountOf]
  | clearBusy topic => simp [brokerStep, closeCountOf]

/-- Over a whole operation sequence in which handle `h` is never re-issued,
the mailbox of `h` is closed exactly once per `Unsubscribe(h)` call. -/
theorem broker_close_count (h : Nat) :
    ∀ (ops : List BrokerOp) (st : BrokerState),
      (∀ topic, BrokerOp.subscribe h topic ∉ ops) →
      st.subs.countP (fun p => p.1 = h) = 1 →
      closeCountOf (brokerRun st ops) h
        = closeCountOf st h
          + ops.countP (fun op => op = BrokerOp.unsubscribe h) := by
  intro ops
  induction ops with
  | nil => intro st _ _; simp [brokerRun]
  | cons op rest ih =>
    intro st hfresh hsingle
    have hop : ∀ topic, op ≠ .subscribe h topic := fun topic hh =>
      hfresh topic (hh ▸ List.mem_cons_self op rest)
    have hfresh' : ∀ topic, BrokerOp.subscribe h topic ∉ rest :=
      fun topic hmem => hfresh topic (List.mem_cons_of_mem op hmem)
    have hsingle' : (brokerStep st op).subs.countP (fun p => p.1 = h) = 1 := by
      rw [countP_subs_step st op h hop, hsingle]
    have hih := ih (brokerStep st op) hfresh' hsingle'
    simp only [brokerRun, List.foldl_cons] at hih ⊢
    rw [hih, closeCountOf_step st op h hsingle, List.countP_cons]
    by_cases hu : op = BrokerOp.unsubscribe h
    · simp [hu]
      omega
    · simp [hu]

/-- C9 (amended): for every subscription handle, each `Unsubscribe` call
closes its mailbox exactly once — so over any operation sequence that
unsubscribes the handle a single time the mailbox is closed exactly once,
while each further `Unsubscribe` call on the same handle performs an
additional close of the already-closed channel (a runtime panic in Go). -/
theorem broker_unsubscribe_closes_once (h : Nat) (ops : List BrokerOp)
    (st : BrokerState)
    (hfresh : ∀ topic, BrokerOp.subscribe h topic ∉ ops)
    (hsingle : st.subs.countP (fun p => p.1 = h) = 1)
    (hinit : closeCountOf st h = 0)
    (honce : ops.countP (fun op => op = BrokerOp.unsubscribe h) = 1) :
    closeCountOf (brokerRun st ops) h = 1 := by
  rw [broker_close_count h ops st hfresh hsingle, hinit, honce]

/-- C9 witness: subscribe then one unsubscribe closes the mailbox exactly
once. -/
theorem broker_unsubscribe_closes_once_witness :
    closeCountOf (brokerRun
      (brokerRun { subs := [], busy := [] } [.subscribe 0 "conv"])
      [.publish "conv" 1, .unsubscribe 0]) 0 = 1 :=
  broker_unsubscribe_closes_once 0 [.publish "conv" 1, .unsubscribe 0]
    (brokerRun { subs := [], busy := [] } [.subscribe 0 "conv"])
    (by intro topic; simp) (by decide) (by decide) (by decide)

end Blippy
